import Mathlib

/-
Verification of the CapIoT experiment-orchestration engine.

Shallow embedding of the Python sources under src/capiot/:
  - utils/sleep_times.py      (SleepTimes hot-reloading timing source)
  - context.py                (ExperimentContext ledger and summary)
  - utils/process_handler.py  (ProcessHandle.kill_tree, run_and_wait)
  - runners/__init__.py       (runner registry and dispatch)
  - runners/android_lan.py    (phase/iteration state machine, cleanup)
  - runners/ios_wan.py        (WAN iOS phase/iteration state machine)
  - runners/ios_lan.py        (LAN iOS setup phase and iteration cleanup)

External effects (adb/ssh/subprocess calls, the filesystem, YAML parsing)
are abstracted into explicit "world" records that state, per call site and
iteration, whether the call raises and what value it returns.  The control
flow of the Python functions (try/except/finally, early exits, None
checks) is translated statement by statement.
-/

set_option autoImplicit false

namespace Capiot

/-- Outcome of one external call: it either returns normally or raises. -/
inductive Outcome where
  | ok
  | fail
deriving DecidableEq

/-! ### Timing source: utils/sleep_times.py

`SleepTimes._load_if_file_changed` reads the YAML file when the mtime
fingerprint changed, applies Python's `yaml.safe_load(text) or {}`
coercion, checks `isinstance(raw, dict)`, and checks every value with
`isinstance(value, (int, float))` (note: Python's `bool` is a subclass of
`int`, so boolean values pass this check).  `SleepTimes.get` then looks
the key up in the cached mapping, falling back to the caller's default.
-/

/-- Values a `yaml.safe_load` call can produce, as far as the timing
source inspects them.  Mapping keys are modelled as strings (the code
applies `str(key)`, the identity on strings). -/
inductive Yaml where
  | null
  | bool (b : Bool)
  | int (n : Int)
  | float (q : Rat)
  | str (s : String)
  | list (items : List Yaml)
  | dict (entries : List (String × Yaml))

/-- Python truthiness of a parsed YAML value, used by the `raw ... or {}`
coercion in `_load_if_file_changed`. -/
def pyTruthy : Yaml → Bool
  | .null => false
  | .bool b => b
  | .int n => n != 0
  | .float q => q != 0
  | .str s => s != ""
  | .list items => !items.isEmpty
  | .dict entries => !entries.isEmpty

/-- Python's `isinstance(value, (int, float))`.  `bool` is a subclass of
`int` in Python, so booleans count as numbers here. -/
def pyNumeric : Yaml → Bool
  | .int _ => true
  | .float _ => true
  | .bool _ => true
  | _ => false

/-- Python's `float(value)` on values accepted by `pyNumeric`. -/
def pyFloat : Yaml → Rat
  | .int n => (n : Rat)
  | .float q => q
  | .bool b => if b then 1 else 0
  | _ => 0

/-- The two `ValueError`s `_load_if_file_changed` can raise. -/
inductive LoadErr where
  | notMapping
  | notNumber (key : String)
deriving DecidableEq

/-- The `for key, value in raw.items()` loop of `_load_if_file_changed`:
raises `ValueError` at the first non-numeric value, otherwise converts
every value with `float`. -/
def parseEntries : List (String × Yaml) → Except LoadErr (List (String × Rat))
  | [] => .ok []
  | (k, v) :: rest =>
    if pyNumeric v then
      match parseEntries rest with
      | .ok tail => .ok ((k, pyFloat v) :: tail)
      | .error e => .error e
    else .error (.notNumber k)

/-- The `_Cache` dataclass: mtime fingerprint (sentinel `-1.0`) plus the
optional parsed mapping. -/
structure CacheState where
  lastModifiedTime : Int
  parsedValues : Option (List (String × Rat))
deriving DecidableEq

/-- Fresh `_Cache()` state. -/
def initCache : CacheState := { lastModifiedTime := -1, parsedValues := none }

/-- State of the backing file at the moment of one `get` call:
missing, or present with an mtime fingerprint and parsed content. -/
inductive FileState where
  | absent
  | present (mtime : Int) (doc : Yaml)

/-- Embedding of `SleepTimes._load_if_file_changed` (sleep_times.py
lines 37-78), for the case where a path is configured.  Returns the
updated cache or the propagated `ValueError`. -/
def loadIfFileChanged (fs : FileState) (st : CacheState) : Except LoadErr CacheState :=
  match fs with
  | .absent => .ok { lastModifiedTime := -1, parsedValues := some [] }
  | .present mtime doc =>
    if mtime == st.lastModifiedTime && st.parsedValues.isSome then .ok st
    else
      let raw := if pyTruthy doc then doc else .dict []
      match raw with
      | .dict entries =>
        match parseEntries entries with
        | .ok parsed => .ok { lastModifiedTime := mtime, parsedValues := some parsed }
        | .error e => .error e
      | _ => .error .notMapping

/-- Python dict semantics for the parsed assoc list: a later duplicate
key overwrites an earlier one, so lookup prefers the last binding. -/
def lookupRat (key : String) : List (String × Rat) → Option Rat
  | [] => none
  | (k, v) :: rest =>
    match lookupRat key rest with
    | some r => some r
    | none => if k == key then some v else none

/-- Embedding of `SleepTimes.get` (sleep_times.py lines 82-89): reload if
stale, then `data.get(key, default)` on `parsed_values or {}`.  An error
from the reload propagates and leaves the cache unchanged. -/
def sleepGet (fs : FileState) (st : CacheState) (key : String) (dflt : Rat) :
    Except LoadErr (Rat × CacheState) :=
  match loadIfFileChanged fs st with
  | .error e => .error e
  | .ok st' =>
    let data := st'.parsedValues.getD []
    .ok ((lookupRat key data).getD dflt, st')

/-- True when the call raised. -/
def raisesError (r : Except LoadErr (Rat × CacheState)) : Bool :=
  match r with
  | .error _ => true
  | .ok _ => false

/-- Python's notion of "flat key-to-number mapping" as checked by
`_load_if_file_changed`: a dict all of whose values pass
`isinstance(value, (int, float))`. -/
def isFlatNumberMapping : Yaml → Bool
  | .dict entries => entries.all (fun kv => pyNumeric kv.2)
  | _ => false

/-! ### Experiment context ledger and summary: context.py -/

/-- A phase ledger: ordered (iteration index, success) pairs, in the
per-phase insertion order of `ExperimentContext._iteration_results`. -/
abbrev Ledger := List (Nat × Bool)

/-- Python `str.ljust`-style padding produced by the format spec
`{phase:10s}`. -/
def pyLjust (s : String) (w : Nat) : String :=
  s ++ String.mk (List.replicate (w - s.length) ' ')

/-- Python right-aligned numeric padding produced by `{n:2d}` for a
non-negative value. -/
def pyRjust (s : String) (w : Nat) : String :=
  String.mk (List.replicate (w - s.length) ' ') ++ s

/-- One line of `ExperimentContext.summarise_iterations` (context.py
lines 99-109). -/
def summaryLine (phase : String) (results : Ledger) : String :=
  let total := results.length
  let failed := (results.filter (fun r => !r.2)).map (fun r => r.1)
  let success := total - failed.length
  let failStr :=
    if failed.isEmpty then ""
    else " failed: (" ++ String.intercalate ", " (failed.map toString) ++ ")"
  pyLjust phase 10 ++ ": " ++ pyRjust (toString success) 2 ++ " / " ++
    pyRjust (toString total) 2 ++ failStr

/-- The summary string returned by
`ExperimentContext.summarise_iterations` (context.py lines 90-121),
with the ledger given in phase insertion order. -/
def summariseIterations (ledger : List (String × Ledger)) : String :=
  "Experiment summary:" ++ "\n" ++
    String.intercalate "\n" (ledger.map (fun pr => summaryLine pr.1 pr.2))

/-- Decidable substring test on character lists: `needle` appears
contiguously inside `hay`. -/
def containsSeq (needle hay : List Char) : Bool :=
  match hay with
  | [] => needle.isEmpty
  | _ :: t => (needle.isPrefixOf hay) || containsSeq needle t

/-- The ledger of the §8 scenario: two baseline iterations (second one
mismatching) and one successful instrumented iteration. -/
def ledgerScenario : List (String × Ledger) :=
  [("no_frida", [(1, true), (2, false)]), ("frida", [(1, true)])]

/-! ### Process handle: utils/process_handler.py

`ProcessHandle.kill_tree` (lines 45-53) tries
`os.killpg(os.getpgid(pid), SIGKILL)`; on any exception it falls back to
`popen.kill()`, and any exception there is swallowed by `pass`. -/

/-- Which of the two underlying OS calls of `kill_tree` raise during one
invocation.  For an already-dead process `os.getpgid`/`os.killpg` raise
`ProcessLookupError`, which is the first flag. -/
structure KillWorld where
  killpgRaises : Bool
  killRaises : Bool

/-- Exceptions escaping a modelled Python call. -/
inductive PyRaise where
  | raised
deriving DecidableEq

/-- The `os.killpg(os.getpgid(pid), SIGKILL)` attempt. -/
def attemptKillpg (w : KillWorld) : Except PyRaise Unit :=
  if w.killpgRaises then .error .raised else .ok ()

/-- The `self.popen.kill()` fallback attempt. -/
def attemptKill (w : KillWorld) : Except PyRaise Unit :=
  if w.killRaises then .error .raised else .ok ()

/-- Embedding of `ProcessHandle.kill_tree` (process_handler.py lines
45-53): outer try around the group kill, inner try-pass around the
fallback. -/
def killTree (w : KillWorld) : Except PyRaise Unit :=
  match attemptKillpg w with
  | .ok _ => .ok ()
  | .error _ =>
    match attemptKill w with
    | .ok _ => .ok ()
    | .error _ => .ok ()

/-! ### Bounded command runner: run_and_wait (process_handler.py 82-151) -/

/-- What `subprocess.TimeoutExpired` carries when `proc.communicate`
times out: the partially captured streams (possibly absent). -/
structure TimeoutInfo where
  output : Option String
  stderr : Option String
deriving DecidableEq

/-- Abstraction of the OS-visible behaviour of one `run_and_wait`
invocation: the result of the first `communicate`, whether each
escalation call raises, the result of the best-effort final read, and
the eventual return code on the non-timeout path. -/
structure RunWorld where
  communicate1 : Except TimeoutInfo (String × String)
  killpgTerm : Outcome
  terminateFallback : Outcome
  waitGrace : Outcome
  killpgKill : Outcome
  killFallback : Outcome
  communicate2 : Option (String × String)
  returncode : Int

/-- Observable escalation steps of `run_and_wait`, in invocation order. -/
inductive RunEv where
  | sigtermGroup
  | terminateChild
  | waitGrace
  | sigkillGroup
  | killChild
  | finalRead
deriving DecidableEq

/-- Errors raised by `run_and_wait`: the distinguished timeout error
carrying the requested timeout and whatever output was captured, or the
non-zero-exit error carrying the captured streams. -/
inductive RunErr where
  | timedOut (timeout : Option Nat) (output : Option String) (stderr : Option String)
  | calledProcessError (rc : Int) (output : String) (stderr : String)
deriving DecidableEq

/-- The best-effort final read on the timeout path (process_handler.py
lines 135-138): the second `communicate` if it succeeds, else the
streams already carried by the `TimeoutExpired` exception. -/
def bestEffortRead (w : RunWorld) (ti : TimeoutInfo) : Option String × Option String :=
  match w.communicate2 with
  | some (o, e) => (some o, some e)
  | none => (ti.output, ti.stderr)

/-- Embedding of `run_and_wait` (process_handler.py lines 82-151).
Returns the `CompletedProcess` data or the raised error, together with
the ordered trace of escalation steps taken on the timeout path. -/
def runAndWait (w : RunWorld) (timeout : Option Nat) (check : Bool) :
    Except RunErr (Int × String × String) × List RunEv :=
  match w.communicate1 with
  | .ok (out, err) =>
    if check && w.returncode != 0 then
      (.error (.calledProcessError w.returncode out err), [])
    else
      (.ok (w.returncode, out, err), [])
  | .error ti =>
    let termEvs :=
      match w.killpgTerm with
      | .ok => [RunEv.sigtermGroup]
      | .fail => [RunEv.sigtermGroup, RunEv.terminateChild]
    let killEvs :=
      match w.waitGrace with
      | .ok => [RunEv.waitGrace]
      | .fail =>
        match w.killpgKill with
        | .ok => [RunEv.waitGrace, RunEv.sigkillGroup]
        | .fail => [RunEv.waitGrace, RunEv.sigkillGroup, RunEv.killChild]
    let (out, err) := bestEffortRead w ti
    (.error (.timedOut timeout out err), termEvs ++ killEvs ++ [RunEv.finalRead])

/-! ### Runner registry and dispatch: runners/__init__.py

`dispatch` filters the registry by `can_handle`, sorts the matched by
priority descending (Python `sorted` with `reverse=True` is a stable
sort by key), takes all entries tied with the first entry's priority,
and runs the unique top candidate or raises. -/

/-- One `_Entry` of the registry together with the behaviour of the
runner it names: `canHandle` is the class's capability check and `run`
the effect of `entry.cls().run(ctx)` (normal return or a raised error of
kind `ε`). -/
structure Entry (κ χ ε : Type) where
  name : String
  priority : Int
  canHandle : κ → Bool
  run : χ → Except ε Unit

/-- Result of `dispatch`: which runner ran to completion, which error it
raised (propagated unmodified), or the selection errors
`RunnerNotFoundError` / `RunnerAmbiguousError` with their messages. -/
inductive DispatchResult (ε : Type) where
  | ok (ranName : String)
  | runnerNotFound (msg : String)
  | runnerAmbiguous (msg : String)
  | runnerError (e : ε)

/-- Stable insertion for the descending-by-priority sort: the new entry
goes after every already-placed entry of greater or equal priority. -/
def insertDesc {κ χ ε : Type} (e : Entry κ χ ε) : List (Entry κ χ ε) → List (Entry κ χ ε)
  | [] => [e]
  | x :: xs => if e.priority ≤ x.priority then x :: insertDesc e xs else e :: x :: xs

/-- Stable sort by priority descending, the observable behaviour of
`sorted(matched, key=lambda e: e.priority, reverse=True)`. -/
def sortByPriorityDesc {κ χ ε : Type} (l : List (Entry κ χ ε)) : List (Entry κ χ ε) :=
  l.foldl (fun acc e => insertDesc e acc) []

/-- The tie message of `RunnerAmbiguousError`, naming every tied
candidate and its priority as in runners/__init__.py line 107. -/
def tiedMsg {κ χ ε : Type} (l : List (Entry κ χ ε)) : String :=
  String.intercalate ", "
    (l.map (fun e => e.name ++ "(prio=" ++ toString e.priority ++ ")"))

/-- Message of `RunnerNotFoundError`. -/
def noMatchMsg : String := "No runner matched this configuration."

/-- Effect of running one selected entry: a raised error propagates
unmodified in kind. -/
def runOutcome {κ χ ε : Type} (e : Entry κ χ ε) (ctx : χ) : DispatchResult ε :=
  match e.run ctx with
  | .ok _ => .ok e.name
  | .error ex => .runnerError ex

/-- Selection among the sorted matched (runners/__init__.py lines
98-109): the first entry's priority is the top priority, all entries at
that priority are collected, and a unique top candidate runs while two
or more raise the ambiguity error. -/
def pickTop {κ χ ε : Type} (sorted : List (Entry κ χ ε)) (ctx : χ) : DispatchResult ε :=
  match sorted with
  | [] => .runnerNotFound noMatchMsg
  | tope :: _ =>
    let tops := sorted.filter (fun e => e.priority == tope.priority)
    match tops with
    | [e] => runOutcome e ctx
    | _ => .runnerAmbiguous (tiedMsg tops)

/-- Embedding of `dispatch` (runners/__init__.py lines 78-109). -/
def dispatch {κ χ ε : Type} (registry : List (Entry κ χ ε)) (cfg : κ) (ctx : χ) :
    DispatchResult ε :=
  let matched := registry.filter (fun e => e.canHandle cfg)
  if matched.isEmpty then .runnerNotFound noMatchMsg
  else pickTop (sortByPriorityDesc matched) ctx

/-- Maximum priority among a list of entries (0 for an empty list, a
case `dispatch` never reaches). -/
def maxPriority {κ χ ε : Type} : List (Entry κ χ ε) → Int
  | [] => 0
  | e :: es => es.foldl (fun a x => max a x.priority) e.priority

/-- The candidates tied at the maximum priority among the matched, in
registry order; `dispatch` selects among exactly these. -/
def topCandidates {κ χ ε : Type} (registry : List (Entry κ χ ε)) (cfg : κ) :
    List (Entry κ χ ε) :=
  let matched := registry.filter (fun e => e.canHandle cfg)
  matched.filter (fun e => e.priority == maxPriority matched)

/-! ### Android LAN phase/iteration state machine: runners/android_lan.py

`_iteration_phase` (lines 114-214) runs `for i in range(1, n+1)`, with a
try body (apply iptables, start captures, start app or mitm+frida,
taps), an `except Exception` that sets `success = False` without
re-raising, and a `finally` block that stops and retrieves everything
and appends the ledger entry last.  Nothing inside the `finally` is
individually guarded: a raise there propagates out of the loop.
`server_process` is reset to `None` each iteration and killed without a
`None` check; `phone_pcap_name` is function-scoped, so it keeps the
previous iteration's value when the body raises before reassigning it. -/

/-- Per-call-site, per-iteration behaviour of the external tools invoked
by the android LAN iteration phase. -/
structure AWorld where
  iptablesUp : Nat → Outcome
  startServer : Nat → Outcome
  startPcapdroid : Nat → Outcome
  startMitm : Nat → Outcome
  startFrida : Nat → Outcome
  startApp : Nat → Outcome
  taps : Nat → Option Bool
  stopPcapdroid : Nat → Outcome
  pullFile : Nat → Outcome
  deleteFile : Nat → Outcome
  iptablesDown : Nat → Outcome
  stopApp : Nat → Outcome

/-- State left by one execution of the try body of an android iteration:
the `success` flag and which local variables were assigned before the
body finished or raised. -/
structure ABody where
  success : Bool
  serverStarted : Bool
  nameAssigned : Bool
  mitmStarted : Bool
  fridaStarted : Bool
deriving DecidableEq

/-- Embedding of the try body of `_iteration_phase`
(android_lan.py lines 134-181).  An exception from any step is caught by
the `except Exception` clause, which sets `success = False`; the field
values record which assignments had happened by then.
`phone_pcap_name` (line 144) is assigned before `start_pcapdroid` is
called, so it is set exactly when `start_tcpdump` on the server
succeeded. -/
def runBodyA (w : AWorld) (useFrida : Bool) (i : Nat) : ABody :=
  if useFrida then
    match w.iptablesUp i with
    | .fail => ⟨false, false, false, false, false⟩
    | .ok =>
      match w.startServer i with
      | .fail => ⟨false, false, false, false, false⟩
      | .ok =>
        match w.startPcapdroid i with
        | .fail => ⟨false, true, true, false, false⟩
        | .ok =>
          match w.startMitm i with
          | .fail => ⟨false, true, true, false, false⟩
          | .ok =>
            match w.startFrida i with
            | .fail => ⟨false, true, true, true, false⟩
            | .ok =>
              match w.taps i with
              | none => ⟨false, true, true, true, true⟩
              | some b => ⟨b, true, true, true, true⟩
  else
    match w.startServer i with
    | .fail => ⟨false, false, false, false, false⟩
    | .ok =>
      match w.startPcapdroid i with
      | .fail => ⟨false, true, true, false, false⟩
      | .ok =>
        match w.startApp i with
        | .fail => ⟨false, true, true, false, false⟩
        | .ok =>
          match w.taps i with
          | none => ⟨false, true, true, false, false⟩
          | some b => ⟨b, true, true, false, false⟩

/-- Observable actions of the android iteration `finally` block, in
execution order, plus the final ledger append. -/
inductive AEv where
  | stopPcapdroid (i : Nat)
  | killServer (i : Nat)
  | killMitm (i : Nat)
  | killFrida (i : Nat)
  | pullPcap (i : Nat)
  | deletePcap (i : Nat)
  | iptablesDown (i : Nat)
  | stopApp (i : Nat)
  | record (i : Nat) (success : Bool)
deriving DecidableEq

/-- Exceptions that can escape the android iteration `finally` block.
`serverHandleNone` is the `AttributeError` from
`server_process.kill_tree()` when `server_process` is still `None`;
`pcapNameNone` is the `TypeError` from `pcap_download_path / None`. -/
inductive AErr where
  | stopPcapdroidRaised (i : Nat)
  | serverHandleNone (i : Nat)
  | pcapNameNone (i : Nat)
  | pullRaised (i : Nat)
  | deleteRaised (i : Nat)
  | iptablesDownRaised (i : Nat)
  | stopAppRaised (i : Nat)
deriving DecidableEq

/-- Embedding of the `finally` block of the android `_iteration_phase`
(android_lan.py lines 182-212).  Steps run in order; the first raise
aborts the remaining steps and escapes (there is no per-step guard).
`kill_tree` itself never raises (process_handler.py lines 45-53), but
calling it on `None` does.  `nameSet` is the current value of the
function-scoped `phone_pcap_name` (`true` when it is not `None`). -/
def runCleanupA (w : AWorld) (useFrida : Bool) (i : Nat) (nameSet : Bool) (b : ABody) :
    List AEv × Option AErr :=
  match w.stopPcapdroid i with
  | .fail => ([.stopPcapdroid i], some (.stopPcapdroidRaised i))
  | .ok =>
    if !b.serverStarted then ([.stopPcapdroid i], some (.serverHandleNone i))
    else
      let evs3 := [AEv.stopPcapdroid i, AEv.killServer i]
        ++ (if b.mitmStarted then [AEv.killMitm i] else [])
        ++ (if b.fridaStarted then [AEv.killFrida i] else [])
      if !nameSet then (evs3, some (.pcapNameNone i))
      else
        match w.pullFile i with
        | .fail => (evs3 ++ [.pullPcap i], some (.pullRaised i))
        | .ok =>
          let evs4 := evs3 ++ [AEv.pullPcap i]
          match w.deleteFile i with
          | .fail => (evs4 ++ [.deletePcap i], some (.deleteRaised i))
          | .ok =>
            let evs5 := evs4 ++ [AEv.deletePcap i]
            if useFrida then
              match w.iptablesDown i with
              | .fail => (evs5 ++ [.iptablesDown i], some (.iptablesDownRaised i))
              | .ok =>
                match w.stopApp i with
                | .fail => (evs5 ++ [.iptablesDown i, .stopApp i], some (.stopAppRaised i))
                | .ok =>
                  (evs5 ++ [AEv.iptablesDown i, AEv.stopApp i, AEv.record i b.success], none)
            else
              match w.stopApp i with
              | .fail => (evs5 ++ [.stopApp i], some (.stopAppRaised i))
              | .ok => (evs5 ++ [AEv.stopApp i, AEv.record i b.success], none)

/-- Result of one phase: the phase ledger, the trace of cleanup actions,
and the exception (if any) that escaped the loop. -/
structure PhaseResult where
  ledger : Ledger
  events : List AEv
  escaped : Option AErr
deriving DecidableEq

/-- The android phase loop from iteration `i` with `rem` iterations left
and `nameSet` the current `phone_pcap_name` state.  The ledger entry for
an iteration is appended (last statement of the `finally`) only when no
cleanup step raised; a cleanup raise aborts the whole loop. -/
def phaseLoopA (w : AWorld) (useFrida : Bool) : Nat → Nat → Bool → PhaseResult
  | _, 0, _ => ⟨[], [], none⟩
  | i, rem + 1, nameSet =>
    let b := runBodyA w useFrida i
    let nameSet' := b.nameAssigned || nameSet
    let cl := runCleanupA w useFrida i nameSet' b
    match cl.2 with
    | some e => ⟨[], cl.1, some e⟩
    | none =>
      let rest := phaseLoopA w useFrida (i + 1) rem nameSet'
      ⟨(i, b.success) :: rest.ledger, cl.1 ++ rest.events, rest.escaped⟩

/-- Embedding of `_iteration_phase` (android_lan.py lines 114-214) for a
configured iteration count `n`: iterations `1..n`, `phone_pcap_name`
initially `None`. -/
def iterationPhaseA (w : AWorld) (useFrida : Bool) (n : Nat) : PhaseResult :=
  phaseLoopA w useFrida 1 n false

/-! ### Android run-level cleanup: android_lan.py `clean_up` (lines 61-79)

All four steps (pull bluetooth log, uninstall app, reboot, write the
summary) sit inside one `try` whose `except` re-raises everything as
`ExperimentError`; no step is individually guarded. -/

/-- Behaviour of the four external steps of `clean_up`. -/
structure CWorld where
  pullBtLog : Outcome
  uninstallApp : Outcome
  reboot : Outcome
  summaryWrite : Outcome

/-- The four actions of `clean_up`, in order. -/
inductive CEv where
  | pullBtLog
  | uninstallApp
  | reboot
  | summary
deriving DecidableEq

/-- The single error kind escaping `clean_up`. -/
inductive CErr where
  | experimentError
deriving DecidableEq

/-- Embedding of `clean_up` (android_lan.py lines 61-79): sequential
steps, one shared handler that re-raises as `ExperimentError`. -/
def cleanUpA (w : CWorld) : List CEv × Option CErr :=
  match w.pullBtLog with
  | .fail => ([.pullBtLog], some .experimentError)
  | .ok =>
    match w.uninstallApp with
    | .fail => ([.pullBtLog, .uninstallApp], some .experimentError)
    | .ok =>
      match w.reboot with
      | .fail => ([.pullBtLog, .uninstallApp, .reboot], some .experimentError)
      | .ok =>
        match w.summaryWrite with
        | .fail => ([.pullBtLog, .uninstallApp, .reboot, .summary], some .experimentError)
        | .ok => ([.pullBtLog, .uninstallApp, .reboot, .summary], none)

/-! ### iOS WAN phase/iteration state machine: runners/ios_wan.py

Same shape as the android phase, with remote-pid-based phone and relay
captures.  `phone_pcap_name` and `phone_tcpdump_pid` are function-scoped
(lines 59-60) and survive across iterations; the remote-capture locals
are reset to `None` at the top of every iteration (line 77).  Both stop
calls (`ssh.stop_remote_tcpdump` line 137, `phone.stop_tcpdump` line
140) pass the previously returned pid unmodified; formatting `None`
into the remote `kill` command does not raise, the shell `|| true`
swallows the kill failure.  `phone.stop_app()` (ios.py lines 55-56 and
35-42) swallows every exception and never raises. -/

/-- Per-call-site, per-iteration behaviour of the external tools invoked
by the iOS WAN iteration phase.  The two start calls that return remote
pids yield `none` when they raise. -/
structure IWorld where
  iptablesUp : Nat → Outcome
  startServer : Nat → Outcome
  startPhonePcap : Nat → Option Nat
  startRemotePcap : Nat → Option Nat
  startMitm : Nat → Outcome
  startApp : Nat → Outcome
  startObjection : Nat → Outcome
  taps : Nat → Option Bool
  stopRemoteSsh : Nat → Outcome
  stopPhoneSsh : Nat → Outcome
  downloadPhone : Nat → Outcome
  downloadRemote : Nat → Outcome
  resetTerminal : Nat → Outcome
  iptablesDown : Nat → Outcome

/-- State left by one execution of the try body of an iOS WAN iteration
(ios_wan.py lines 79-134). -/
structure IBody where
  success : Bool
  serverStarted : Bool
  phoneNameAssigned : Bool
  phonePid : Option Nat
  remoteNameAssigned : Bool
  remotePid : Option Nat
  mitmStarted : Bool
  fridaStarted : Bool
deriving DecidableEq

/-- Embedding of the try body of the iOS WAN `_iteration_phase`:
iptables (instrumented mode), server tcpdump, phone tcpdump over ssh
(name assigned on line 89 before the call), relay tcpdump over ssh
(names assigned on lines 94-95 before the call), then mitmdump, app
start, objection attach and taps. -/
def runBodyI (w : IWorld) (useFrida : Bool) (i : Nat) : IBody :=
  let afterRemote := fun (pp rp : Nat) =>
    if useFrida then
      match w.startMitm i with
      | .fail => ⟨false, true, true, some pp, true, some rp, false, false⟩
      | .ok =>
        match w.startApp i with
        | .fail => ⟨false, true, true, some pp, true, some rp, true, false⟩
        | .ok =>
          match w.startObjection i with
          | .fail => ⟨false, true, true, some pp, true, some rp, true, false⟩
          | .ok =>
            match w.taps i with
            | none => (⟨false, true, true, some pp, true, some rp, true, true⟩ : IBody)
            | some b => ⟨b, true, true, some pp, true, some rp, true, true⟩
    else
      match w.startApp i with
      | .fail => ⟨false, true, true, some pp, true, some rp, false, false⟩
      | .ok =>
        match w.taps i with
        | none => (⟨false, true, true, some pp, true, some rp, false, false⟩ : IBody)
        | some b => ⟨b, true, true, some pp, true, some rp, false, false⟩
  let fromServer : IBody :=
    match w.startServer i with
    | .fail => ⟨false, false, false, none, false, none, false, false⟩
    | .ok =>
      match w.startPhonePcap i with
      | none => ⟨false, true, true, none, false, none, false, false⟩
      | some pp =>
        match w.startRemotePcap i with
        | none => ⟨false, true, true, some pp, true, none, false, false⟩
        | some rp => afterRemote pp rp
  if useFrida then
    match w.iptablesUp i with
    | .fail => ⟨false, false, false, none, false, none, false, false⟩
    | .ok => fromServer
  else fromServer

/-- Observable actions of the iOS WAN iteration `finally` block.  The
two stop events carry the pid argument actually passed to the remote
`kill` command. -/
inductive IEv where
  | stopRemote (i : Nat) (pidArg : Option Nat)
  | stopPhone (i : Nat) (pidArg : Option Nat)
  | killServer (i : Nat)
  | killMitm (i : Nat)
  | killFrida (i : Nat)
  | downloadPhone (i : Nat)
  | downloadRemote (i : Nat)
  | resetTerminal (i : Nat)
  | iptablesDown (i : Nat)
  | stopApp (i : Nat)
  | record (i : Nat) (success : Bool)
deriving DecidableEq

/-- Exceptions that can escape the iOS WAN iteration `finally` block. -/
inductive IErr where
  | stopRemoteRaised (i : Nat)
  | stopPhoneRaised (i : Nat)
  | serverHandleNone (i : Nat)
  | phoneNameNone (i : Nat)
  | downloadPhoneRaised (i : Nat)
  | remoteNameNone (i : Nat)
  | downloadRemoteRaised (i : Nat)
  | resetTerminalRaised (i : Nat)
  | iptablesDownRaised (i : Nat)
deriving DecidableEq

/-- Embedding of the `finally` block of the iOS WAN `_iteration_phase`
(ios_wan.py lines 135-172).  `phoneNameSet`/`phonePidVar` are the
current values of the function-scoped locals (merged with previous
iterations); the remote locals come from this iteration's body only.
Stop calls pass the stored pids unmodified. -/
def runCleanupI (w : IWorld) (useFrida : Bool) (i : Nat)
    (phoneNameSet : Bool) (phonePidVar : Option Nat) (b : IBody) :
    List IEv × Option IErr :=
  match w.stopRemoteSsh i with
  | .fail => ([.stopRemote i b.remotePid], some (.stopRemoteRaised i))
  | .ok =>
    match w.stopPhoneSsh i with
    | .fail =>
      ([.stopRemote i b.remotePid, .stopPhone i phonePidVar], some (.stopPhoneRaised i))
    | .ok =>
      if !b.serverStarted then
        ([.stopRemote i b.remotePid, .stopPhone i phonePidVar], some (.serverHandleNone i))
      else
        let evs := [IEv.stopRemote i b.remotePid, IEv.stopPhone i phonePidVar,
            IEv.killServer i]
          ++ (if b.mitmStarted then [IEv.killMitm i] else [])
          ++ (if b.fridaStarted then [IEv.killFrida i] else [])
        if !phoneNameSet then (evs, some (.phoneNameNone i))
        else
          match w.downloadPhone i with
          | .fail => (evs ++ [.downloadPhone i], some (.downloadPhoneRaised i))
          | .ok =>
            let evs2 := evs ++ [IEv.downloadPhone i]
            if !b.remoteNameAssigned then (evs2, some (.remoteNameNone i))
            else
              match w.downloadRemote i with
              | .fail => (evs2 ++ [.downloadRemote i], some (.downloadRemoteRaised i))
              | .ok =>
                let evs3 := evs2 ++ [IEv.downloadRemote i]
                if useFrida then
                  match w.resetTerminal i with
                  | .fail => (evs3 ++ [.resetTerminal i], some (.resetTerminalRaised i))
                  | .ok =>
                    match w.iptablesDown i with
                    | .fail =>
                      (evs3 ++ [.resetTerminal i, .iptablesDown i],
                        some (.iptablesDownRaised i))
                    | .ok =>
                      (evs3 ++ [IEv.resetTerminal i, IEv.iptablesDown i, IEv.stopApp i,
                        IEv.record i b.success], none)
                else (evs3 ++ [IEv.stopApp i, IEv.record i b.success], none)

/-- Result of an iOS WAN phase. -/
structure IPhaseResult where
  ledger : Ledger
  events : List IEv
  escaped : Option IErr
deriving DecidableEq

/-- The iOS WAN phase loop, threading the function-scoped
`phone_pcap_name` and `phone_tcpdump_pid` locals across iterations. -/
def phaseLoopI (w : IWorld) (useFrida : Bool) :
    Nat → Nat → Bool → Option Nat → IPhaseResult
  | _, 0, _, _ => ⟨[], [], none⟩
  | i, rem + 1, nameSet, pidVar =>
    let b := runBodyI w useFrida i
    let nameSet' := b.phoneNameAssigned || nameSet
    let pidVar' := match b.phonePid with | some p => some p | none => pidVar
    let cl := runCleanupI w useFrida i nameSet' pidVar' b
    match cl.2 with
    | some e => ⟨[], cl.1, some e⟩
    | none =>
      let rest := phaseLoopI w useFrida (i + 1) rem nameSet' pidVar'
      ⟨(i, b.success) :: rest.ledger, cl.1 ++ rest.events, rest.escaped⟩

/-- Embedding of the iOS WAN `_iteration_phase` loop (ios_wan.py lines
73-174) for `n` iterations. -/
def iterationPhaseI (w : IWorld) (useFrida : Bool) (n : Nat) : IPhaseResult :=
  phaseLoopI w useFrida 1 n false none

/-! ### iOS LAN profile: runners/ios_lan.py

The two stop-phone-tcpdump call sites of this (same-network) profile add
one to the pid returned by the start call: `phone.stop_tcpdump(...,
phone_pid + 1)` in `_record_setup_phase` (line 83) and
`phone.stop_tcpdump(..., phone_tcpdump_pid + 1)` in the iteration
`finally` (line 167). -/

/-- External behaviour of the iOS LAN setup-recording sub-phase. -/
structure SWorld where
  startServer : Outcome
  startPhonePcap : Option Nat
  stopPhoneSsh : Outcome
  downloadPhone : Outcome

/-- Actions of the setup sub-phase after the operator confirms. -/
inductive SEv where
  | killServer
  | stopPhone (pidArg : Nat)
  | download
deriving DecidableEq

/-- Exceptions escaping `_record_setup_phase` (there is no handler in
it; they propagate to the runner's top-level `except`). -/
inductive SErr where
  | startServerRaised
  | startPhoneRaised
  | stopPhoneRaised
  | downloadRaised
deriving DecidableEq

/-- Embedding of `_record_setup_phase` (ios_lan.py lines 63-89): start
server and phone captures, wait for the operator, kill the server
capture, stop the phone capture at `pid + 1`, download the phone file. -/
def iosLanSetup (w : SWorld) : List SEv × Option SErr :=
  match w.startServer with
  | .fail => ([], some .startServerRaised)
  | .ok =>
    match w.startPhonePcap with
    | none => ([], some .startPhoneRaised)
    | some p =>
      match w.stopPhoneSsh with
      | .fail => ([.killServer, .stopPhone (p + 1)], some .stopPhoneRaised)
      | .ok =>
        match w.downloadPhone with
        | .fail => ([.killServer, .stopPhone (p + 1), .download], some .downloadRaised)
        | .ok => ([.killServer, .stopPhone (p + 1), .download], none)

/-- External behaviour of one iOS LAN iteration `finally` block. -/
structure LanCleanupWorld where
  stopPhoneSsh : Outcome
  downloadPhone : Outcome
  resetTerminal : Outcome
  iptablesDown : Outcome

/-- Actions of the iOS LAN iteration `finally` block, in order. -/
inductive LEv where
  | stopPhone (pidArg : Nat)
  | killServer
  | killMitm
  | killFrida
  | download
  | resetTerminal
  | iptablesDown
  | stopApp
  | record (success : Bool)
deriving DecidableEq

/-- Exceptions that can escape the iOS LAN iteration `finally` block.
`phonePidNone` is the `TypeError` raised by `phone_tcpdump_pid + 1` when
the pid local is still `None`. -/
inductive LErr where
  | phonePidNone
  | stopPhoneRaised
  | serverHandleNone
  | phoneNameNone
  | downloadRaised
  | resetTerminalRaised
  | iptablesDownRaised
deriving DecidableEq

/-- Embedding of the `finally` block of the iOS LAN `_iteration_phase`
(ios_lan.py lines 165-194): stop the phone capture at `pid + 1`, kill
the server capture handle, kill mitm/frida if started, download the
phone file, reset the terminal, revert iptables in instrumented mode,
stop the app, record. -/
def iosLanCleanup (w : LanCleanupWorld) (useFrida : Bool) (phonePid : Option Nat)
    (phoneNameSet serverStarted mitmStarted fridaStarted success : Bool) :
    List LEv × Option LErr :=
  match phonePid with
  | none => ([], some .phonePidNone)
  | some p =>
    match w.stopPhoneSsh with
    | .fail => ([.stopPhone (p + 1)], some .stopPhoneRaised)
    | .ok =>
      if !serverStarted then ([.stopPhone (p + 1)], some .serverHandleNone)
      else
        let evs := [LEv.stopPhone (p + 1), LEv.killServer]
          ++ (if mitmStarted then [LEv.killMitm] else [])
          ++ (if fridaStarted then [LEv.killFrida] else [])
        if !phoneNameSet then (evs, some .phoneNameNone)
        else
          match w.downloadPhone with
          | .fail => (evs ++ [.download], some .downloadRaised)
          | .ok =>
            let evs2 := evs ++ [LEv.download]
            match w.resetTerminal with
            | .fail => (evs2 ++ [.resetTerminal], some .resetTerminalRaised)
            | .ok =>
              let evs3 := evs2 ++ [LEv.resetTerminal]
              if useFrida then
                match w.iptablesDown with
                | .fail => (evs3 ++ [.iptablesDown], some .iptablesDownRaised)
                | .ok =>
                  (evs3 ++ [LEv.iptablesDown, LEv.stopApp, LEv.record success], none)
              else (evs3 ++ [LEv.stopApp, LEv.record success], none)

/-! ### Concrete worlds used by counterexamples and witnesses -/

/-- Android world where every external call succeeds and all taps
match. -/
def aWorldOk : AWorld :=
  { iptablesUp := fun _ => .ok
    startServer := fun _ => .ok
    startPcapdroid := fun _ => .ok
    startMitm := fun _ => .ok
    startFrida := fun _ => .ok
    startApp := fun _ => .ok
    taps := fun _ => some true
    stopPcapdroid := fun _ => .ok
    pullFile := fun _ => .ok
    deleteFile := fun _ => .ok
    iptablesDown := fun _ => .ok
    stopApp := fun _ => .ok }

/-- Android world where `server.start_tcpdump` raises on every
iteration and everything else succeeds. -/
def aWorldServerFail : AWorld := { aWorldOk with startServer := fun _ => .fail }

/-- Android world where `phone.stop_pcapdroid` (the first cleanup step)
raises on every iteration and everything else succeeds. -/
def aWorldStopPcapFail : AWorld := { aWorldOk with stopPcapdroid := fun _ => .fail }

/-- Run-level cleanup world where pulling the bluetooth log raises. -/
def cWorldBtFail : CWorld :=
  { pullBtLog := .fail, uninstallApp := .ok, reboot := .ok, summaryWrite := .ok }

/-- iOS WAN world where every call succeeds, the phone tcpdump start
returns pid 100 and the relay tcpdump start returns pid 200. -/
def iWorldPids : IWorld :=
  { iptablesUp := fun _ => .ok
    startServer := fun _ => .ok
    startPhonePcap := fun _ => some 100
    startRemotePcap := fun _ => some 200
    startMitm := fun _ => .ok
    startApp := fun _ => .ok
    startObjection := fun _ => .ok
    taps := fun _ => some true
    stopRemoteSsh := fun _ => .ok
    stopPhoneSsh := fun _ => .ok
    downloadPhone := fun _ => .ok
    downloadRemote := fun _ => .ok
    resetTerminal := fun _ => .ok
    iptablesDown := fun _ => .ok }

/-- Body state of a fully successful instrumented android iteration. -/
def aBodyAllStarted : ABody := ⟨true, true, true, true, true⟩

/-- Body state of a fully successful instrumented iOS WAN iteration
with phone pid 100 and relay pid 200. -/
def iBodyAllStarted : IBody := ⟨true, true, true, some 100, true, some 200, true, true⟩

/-- A run-and-wait world whose command times out having produced
partial output, with the process surviving the grace wait. -/
def rWorldTimedOut : RunWorld :=
  { communicate1 := .error ⟨some "partial", none⟩
    killpgTerm := .ok
    terminateFallback := .ok
    waitGrace := .fail
    killpgKill := .ok
    killFallback := .ok
    communicate2 := some ("final-out", "final-err")
    returncode := 0 }

/-- iOS LAN setup world: all calls succeed, phone tcpdump pid 7. -/
def sWorldOk : SWorld :=
  { startServer := .ok, startPhonePcap := some 7, stopPhoneSsh := .ok, downloadPhone := .ok }

/-- iOS LAN iteration-cleanup world where every call succeeds. -/
def lanCleanupOk : LanCleanupWorld :=
  { stopPhoneSsh := .ok, downloadPhone := .ok, resetTerminal := .ok, iptablesDown := .ok }

/-- Registry entry whose capability check rejects every config. -/
def entryNoMatch : Entry Bool Unit String := ⟨"NoMatch", 0, fun _ => false, fun _ => .ok ()⟩

/-- Matching entry at priority 1 whose runner raises. -/
def entryHigh : Entry Bool Unit String := ⟨"High", 1, fun _ => true, fun _ => .error "boom"⟩

/-- Matching entry at priority 0 whose runner succeeds. -/
def entryLow : Entry Bool Unit String := ⟨"Low", 0, fun _ => true, fun _ => .ok ()⟩

/-- First of two tied zero-priority matching entries. -/
def entryA : Entry Bool Unit String := ⟨"A", 0, fun _ => true, fun _ => .ok ()⟩

/-- Second of two tied zero-priority matching entries. -/
def entryB : Entry Bool Unit String := ⟨"B", 0, fun _ => true, fun _ => .ok ()⟩

/-! ## Theorems -/

/-- C1: evaluation of the failing input.  In the baseline (no-frida)
android phase with one configured iteration, if the server-capture
start raises inside the body, the exception is caught, but the
`finally` block then calls `kill_tree` on the still-`None`
`server_process`, and the resulting `AttributeError` escapes the loop
after the very first cleanup step: the phase ends with an empty ledger
(the claim demands one entry marked failed) and the app-stop cleanup
never runs. -/
theorem capture_start_raise_loses_ledger_entry :
    iterationPhaseA aWorldServerFail false 1 =
      ⟨[], [AEv.stopPcapdroid 1], some (AErr.serverHandleNone 1)⟩ := rfl

/-- C2 counterexample: with `phone.stop_pcapdroid` (the first cleanup
step of the android iteration `finally`) raising, the remaining cleanup
steps do not run (the trace holds only the one attempted step — in
particular the server-capture kill is absent) and the error escapes the
phase loop instead of being logged and swallowed, contradicting the
claim that cleanup errors are caught individually per cleanup action. -/
theorem cleanup_step_error_not_contained :
    (iterationPhaseA aWorldStopPcapFail false 1).escaped =
        some (AErr.stopPcapdroidRaised 1) ∧
    (iterationPhaseA aWorldStopPcapFail false 1).events = [AEv.stopPcapdroid 1] ∧
    AEv.killServer 1 ∉ (iterationPhaseA aWorldStopPcapFail false 1).events :=
  ⟨rfl, rfl, by decide⟩

/-- C2 amended: cleanup errors are not caught per cleanup action.  In
the per-iteration `finally`, a raise in the first cleanup step aborts
every remaining cleanup step of that iteration, skips the ledger
append, and escapes the phase loop; in the run-level `clean_up`, all
steps share one handler, so a raise in the first step skips the
remaining steps (including the summary write) and is re-raised as
`ExperimentError`. -/
theorem cleanup_error_propagates (w : AWorld) (f : Bool) (n : Nat) (cw : CWorld)
    (hn : 1 ≤ n) (hstop : w.stopPcapdroid 1 = .fail) (hbt : cw.pullBtLog = .fail) :
    (iterationPhaseA w f n).escaped = some (AErr.stopPcapdroidRaised 1) ∧
    (iterationPhaseA w f n).events = [AEv.stopPcapdroid 1] ∧
    (iterationPhaseA w f n).ledger = [] ∧
    cleanUpA cw = ([CEv.pullBtLog], some CErr.experimentError) := by
  obtain ⟨m, rfl⟩ : ∃ m, n = m + 1 := ⟨n - 1, (Nat.succ_pred_eq_of_pos hn).symm⟩
  have hcl : runCleanupA w f 1 (runBodyA w f 1).nameAssigned (runBodyA w f 1) =
      ([.stopPcapdroid 1], some (.stopPcapdroidRaised 1)) := by
    unfold runCleanupA
    rw [hstop]
  refine ⟨?_, ?_, ?_, ?_⟩ <;>
    simp [iterationPhaseA, phaseLoopA, hcl, cleanUpA, hbt]

/-- C2 witness: the amended statement instantiated at the concrete
worlds where the first per-iteration cleanup step and the first
run-level cleanup step raise. -/
theorem cleanup_error_propagates_witness :
    (iterationPhaseA aWorldStopPcapFail true 1).escaped =
        some (AErr.stopPcapdroidRaised 1) ∧
    (iterationPhaseA aWorldStopPcapFail true 1).events = [AEv.stopPcapdroid 1] ∧
    (iterationPhaseA aWorldStopPcapFail true 1).ledger = [] ∧
    cleanUpA cWorldBtFail = ([CEv.pullBtLog], some CErr.experimentError) :=
  cleanup_error_propagates aWorldStopPcapFail true 1 cWorldBtFail (by decide) rfl rfl

/-- C9: `kill_tree` never raises, whatever the two underlying OS calls
do (in particular on a handle whose process is already dead, where both
raise `ProcessLookupError`), and a second call on the same dead handle
does not raise either. -/
theorem killTree_never_raises (w w' : KillWorld) :
    killTree w = .ok () ∧ killTree w' = .ok () := by
  refine ⟨?_, ?_⟩
  · by_cases h1 : w.killpgRaises <;> by_cases h2 : w.killRaises <;>
      simp [killTree, attemptKillpg, attemptKill, h1, h2]
  · by_cases h1 : w'.killpgRaises <;> by_cases h2 : w'.killRaises <;>
      simp [killTree, attemptKillpg, attemptKill, h1, h2]

/-- C10: when the backing file exists but its parsed YAML content is
empty (`yaml.safe_load` returns `None` for an empty file or one holding
only comments), the `or {}` coercion turns it into an empty mapping:
`get` caches the empty mapping under the file's fingerprint and returns
the caller's default for every key without raising. -/
theorem sleepTimes_empty_doc_defaults (m : Int) (key : String) (dflt : Rat) :
    sleepGet (.present m .null) initCache key dflt =
      .ok (dflt, { lastModifiedTime := m, parsedValues := some [] }) := by
  simp [sleepGet, loadIfFileChanged, initCache, pyTruthy, parseEntries, lookupRat]

/-- C6 counterexample: a present backing file whose top level is an
empty YAML list is not a key-to-number mapping, yet `get` does not
raise: the Python `yaml.safe_load(...) or {}` coercion replaces every
falsy document (such as the empty list) with an empty mapping, and the
call silently returns the caller's default. -/
theorem sleepTimes_falsy_doc_defaults :
    sleepGet (.present 5 (.list [])) initCache "start_app" 10 =
      .ok (10, { lastModifiedTime := 5, parsedValues := some [] }) ∧
    isFlatNumberMapping (.list []) = false :=
  ⟨rfl, rfl⟩

/-- Helper: the value-conversion loop raises whenever some value fails
Python's `isinstance(value, (int, float))` check. -/
theorem parseEntries_error_of_bad (entries : List (String × Yaml))
    (h : entries.all (fun kv => pyNumeric kv.2) = false) :
    ∃ e, parseEntries entries = .error e := by
  induction entries with
  | nil => simp at h
  | cons kv rest ih =>
    rw [List.all_cons, Bool.and_eq_false_iff] at h
    rcases h with h | h
    · exact ⟨.notNumber kv.1, by simp [parseEntries, h]⟩
    · obtain ⟨e, he⟩ := ih h
      by_cases hk : pyNumeric kv.2
      · exact ⟨e, by simp [parseEntries, hk, he]⟩
      · exact ⟨.notNumber kv.1, by simp [parseEntries, hk]⟩

/-- C6 amended: a present, truthy, malformed document (top level not a
mapping, or some value failing Python's numeric check, under which a
boolean counts as numeric) makes `get` raise the `ValueError` — on
every call whose staleness check does not hit the cache, i.e. whenever
the file's fingerprint differs from the cached one or nothing is
cached.  Falsy documents are exempt: the `or {}` coercion silently
turns them into an empty mapping (see the counterexample). -/
theorem sleepTimes_malformed_raises (m : Int) (st : CacheState) (doc : Yaml)
    (key : String) (dflt : Rat)
    (hstale : (m == st.lastModifiedTime && st.parsedValues.isSome) = false)
    (htruthy : pyTruthy doc = true)
    (hbad : isFlatNumberMapping doc = false) :
    raisesError (sleepGet (.present m doc) st key dflt) = true := by
  cases doc with
  | dict entries =>
    simp only [isFlatNumberMapping] at hbad
    obtain ⟨e, he⟩ := parseEntries_error_of_bad entries hbad
    simp [sleepGet, loadIfFileChanged, hstale, htruthy, he, raisesError]
  | null => simp [pyTruthy] at htruthy
  | bool b =>
    simp only [pyTruthy] at htruthy
    simp [sleepGet, loadIfFileChanged, hstale, pyTruthy, htruthy, raisesError]
  | int n =>
    simp only [pyTruthy] at htruthy
    simp [sleepGet, loadIfFileChanged, hstale, pyTruthy, htruthy, raisesError]
  | float q =>
    simp only [pyTruthy] at htruthy
    simp [sleepGet, loadIfFileChanged, hstale, pyTruthy, htruthy, raisesError]
  | str s =>
    simp only [pyTruthy] at htruthy
    simp [sleepGet, loadIfFileChanged, hstale, pyTruthy, htruthy, raisesError]
  | list items =>
    simp only [pyTruthy] at htruthy
    simp [sleepGet, loadIfFileChanged, hstale, pyTruthy, htruthy, raisesError]

/-- C6 witness: the amended statement instantiated at a fresh cache and
a mapping holding a string value. -/
theorem sleepTimes_malformed_raises_witness :
    raisesError (sleepGet (.present 3 (.dict [("a", Yaml.str "x")])) initCache "k" 1) =
      true :=
  sleepTimes_malformed_raises 3 initCache (.dict [("a", Yaml.str "x")]) "k" 1
    (by decide) rfl rfl

/-- C8 counterexample: the summary produced from the §8 scenario ledger
does not contain the claimed substring `no_frida: 1 / 2 failed: (2)`:
the format specs `{phase:10s}` and `{n:2d}` pad the phase name to ten
characters and the counts to two, so the colon and counts are spaced
differently. -/
theorem summary_substring_missing :
    containsSeq ("no_frida: 1 / 2 failed: (2)".toList)
      ((summariseIterations ledgerScenario).toList) = false := by
  decide

/-- C8 amended: the scenario summary's exact text, whose padded lines
contain `no_frida  :  1 /  2 failed: (2)` (one successful iteration of
two, iteration 2 listed as failed) and `frida     :  1 /  1` (the
failed-list omitted when empty). -/
theorem summary_format_exact :
    summariseIterations ledgerScenario =
      "Experiment summary:\nno_frida  :  1 /  2 failed: (2)\nfrida     :  1 /  1" ∧
    containsSeq ("no_frida  :  1 /  2 failed: (2)".toList)
      ((summariseIterations ledgerScenario).toList) = true ∧
    containsSeq ("frida     :  1 /  1".toList)
      ((summariseIterations ledgerScenario).toList) = true := by
  refine ⟨?_, ?_, ?_⟩ <;> decide

/-- C5: when the command does not complete within a finite timeout,
`run_and_wait` escalates — group SIGTERM first (with a child-only
fallback), then the two-second grace wait, then group SIGKILL exactly
when the process survived the grace wait — performs a final best-effort
read, and raises the distinguished timeout error carrying the requested
timeout value and whatever output was captured (possibly none), never a
generic failure.  The filtered trace shows the graceful signal strictly
before the grace wait and the forceful kill only after it; the final
read is the last step. -/
theorem runAndWait_timeout_escalation (w : RunWorld) (t : Nat) (check : Bool)
    (ti : TimeoutInfo) (hto : w.communicate1 = .error ti) :
    (runAndWait w (some t) check).1 =
      .error (.timedOut (some t) (bestEffortRead w ti).1 (bestEffortRead w ti).2) ∧
    ((runAndWait w (some t) check).2.filter
        (fun e => decide (e = RunEv.sigtermGroup) || decide (e = RunEv.waitGrace) ||
          decide (e = RunEv.sigkillGroup))) =
      [RunEv.sigtermGroup, RunEv.waitGrace] ++
        (if w.waitGrace = .fail then [RunEv.sigkillGroup] else []) ∧
    (runAndWait w (some t) check).2.getLast? = some RunEv.finalRead := by
  unfold runAndWait
  rw [hto]
  cases h1 : w.killpgTerm <;> cases h2 : w.waitGrace <;> cases h3 : w.killpgKill <;>
    simp [bestEffortRead, h2]

/-- C5 witness: the escalation statement instantiated at a world whose
command times out with partial output, survives the grace wait, and
yields its streams on the final read. -/
theorem runAndWait_timeout_escalation_witness :
    (runAndWait rWorldTimedOut (some 2) true).1 =
      .error (.timedOut (some 2) (some "final-out") (some "final-err")) ∧
    ((runAndWait rWorldTimedOut (some 2) true).2.filter
        (fun e => decide (e = RunEv.sigtermGroup) || decide (e = RunEv.waitGrace) ||
          decide (e = RunEv.sigkillGroup))) =
      [RunEv.sigtermGroup, RunEv.waitGrace, RunEv.sigkillGroup] ∧
    (runAndWait rWorldTimedOut (some 2) true).2.getLast? = some RunEv.finalRead := by
  have h := runAndWait_timeout_escalation rWorldTimedOut 2 true ⟨some "partial", none⟩ rfl
  simpa [bestEffortRead, rWorldTimedOut] using h

/-- C4 counterexample: in a clean instrumented android iteration the
cleanup trace stops the device capture and kills the server capture
before stopping the interception proxy (mitmdump) and the
instrumentation (frida) — the opposite of the claimed
interception-before-capture order. -/
theorem stop_order_counterexample :
    (iterationPhaseA aWorldOk true 1).events =
      [AEv.stopPcapdroid 1, AEv.killServer 1, AEv.killMitm 1, AEv.killFrida 1,
       AEv.pullPcap 1, AEv.deletePcap 1, AEv.iptablesDown 1, AEv.stopApp 1,
       AEv.record 1 true] ∧
    ¬ ((iterationPhaseA aWorldOk true 1).events.indexOf (AEv.killMitm 1) <
        (iterationPhaseA aWorldOk true 1).events.indexOf (AEv.killServer 1)) ∧
    ¬ ((iterationPhaseA aWorldOk true 1).events.indexOf (AEv.killFrida 1) <
        (iterationPhaseA aWorldOk true 1).events.indexOf (AEv.stopPcapdroid 1)) :=
  ⟨rfl, by decide, by decide⟩

/-- C4 amended: the actual per-iteration stop order, for any iteration
whose cleanup steps succeed.  Android LAN: device capture stop, server
capture kill, then mitm and frida kills, then retrieval, rule revert
and app stop.  iOS WAN: relay capture stop, phone capture stop, server
capture kill, then mitm and frida kills, then phone-file retrieval
before relay-file retrieval, then terminal reset, rule revert and app
stop.  Captures are stopped before the interception/instrumentation
processes on top of them; of the claim's ordering only
"phone retrieval before relay retrieval" holds. -/
theorem stop_order_actual (w : AWorld) (iw : IWorld) (i j : Nat) (b : ABody) (ib : IBody)
    (pp : Nat)
    (h1 : w.stopPcapdroid i = .ok) (h2 : w.pullFile i = .ok) (h3 : w.deleteFile i = .ok)
    (h4 : w.iptablesDown i = .ok) (h5 : w.stopApp i = .ok)
    (hb1 : b.serverStarted = true) (hb2 : b.mitmStarted = true) (hb3 : b.fridaStarted = true)
    (g1 : iw.stopRemoteSsh j = .ok) (g2 : iw.stopPhoneSsh j = .ok)
    (g3 : iw.downloadPhone j = .ok) (g4 : iw.downloadRemote j = .ok)
    (g5 : iw.resetTerminal j = .ok) (g6 : iw.iptablesDown j = .ok)
    (k1 : ib.serverStarted = true) (k2 : ib.mitmStarted = true) (k3 : ib.fridaStarted = true)
    (k4 : ib.remoteNameAssigned = true) :
    (runCleanupA w true i true b).1 =
      [AEv.stopPcapdroid i, AEv.killServer i, AEv.killMitm i, AEv.killFrida i,
       AEv.pullPcap i, AEv.deletePcap i, AEv.iptablesDown i, AEv.stopApp i,
       AEv.record i b.success] ∧
    (runCleanupI iw true j true (some pp) ib).1 =
      [IEv.stopRemote j ib.remotePid, IEv.stopPhone j (some pp), IEv.killServer j,
       IEv.killMitm j, IEv.killFrida j, IEv.downloadPhone j, IEv.downloadRemote j,
       IEv.resetTerminal j, IEv.iptablesDown j, IEv.stopApp j, IEv.record j ib.success] := by
  constructor
  · simp [runCleanupA, h1, h2, h3, h4, h5, hb1, hb2, hb3]
  · simp [runCleanupI, g1, g2, g3, g4, g5, g6, k1, k2, k3, k4]

/-- C4 witness: the actual-order statement instantiated at the all-ok
worlds and fully started iteration bodies. -/
theorem stop_order_actual_witness :
    (runCleanupA aWorldOk true 1 true aBodyAllStarted).1 =
      [AEv.stopPcapdroid 1, AEv.killServer 1, AEv.killMitm 1, AEv.killFrida 1,
       AEv.pullPcap 1, AEv.deletePcap 1, AEv.iptablesDown 1, AEv.stopApp 1,
       AEv.record 1 true] ∧
    (runCleanupI iWorldPids true 1 true (some 100) iBodyAllStarted).1 =
      [IEv.stopRemote 1 (some 200), IEv.stopPhone 1 (some 100), IEv.killServer 1,
       IEv.killMitm 1, IEv.killFrida 1, IEv.downloadPhone 1, IEv.downloadRemote 1,
       IEv.resetTerminal 1, IEv.iptablesDown 1, IEv.stopApp 1, IEv.record 1 true] := by
  have h := stop_order_actual aWorldOk iWorldPids 1 1 aBodyAllStarted iBodyAllStarted 100
    rfl rfl rfl rfl rfl rfl rfl rfl rfl rfl rfl rfl rfl rfl rfl rfl rfl rfl
  simpa [aBodyAllStarted, iBodyAllStarted] using h

/-- C7 counterexample: a concrete clean WAN iOS iteration whose phone
capture start returned pid 100 and whose relay capture start returned
pid 200.  Every stop call site of the WAN profile passes the returned
id unmodified — the trace holds `stopRemote 200` and `stopPhone 100`
and no off-by-one-adjusted id — contradicting the claim that some WAN
call sites add a fixed off-by-one adjustment. -/
theorem wan_stop_ids_unmodified :
    (iterationPhaseI iWorldPids false 1).events =
      [IEv.stopRemote 1 (some 200), IEv.stopPhone 1 (some 100), IEv.killServer 1,
       IEv.downloadPhone 1, IEv.downloadRemote 1, IEv.stopApp 1, IEv.record 1 true] ∧
    IEv.stopPhone 1 (some 101) ∉ (iterationPhaseI iWorldPids false 1).events ∧
    IEv.stopRemote 1 (some 201) ∉ (iterationPhaseI iWorldPids false 1).events :=
  ⟨rfl, by decide, by decide⟩

/-- C7 amended: the fixed off-by-one adjustment lives in the
same-network (LAN) iOS profile, not the WAN one.  Both LAN
stop-phone-capture call sites send the stop signal to the returned pid
plus one (setup phase and per-iteration cleanup), while the WAN
profile's stop call sites pass the stored pids unmodified. -/
theorem stop_pid_adjustment_sites (sw : SWorld) (lw : LanCleanupWorld) (iw : IWorld)
    (p q j : Nat) (f ns : Bool) (pp : Option Nat) (b : IBody)
    (pns ss ms fs sc : Bool)
    (hs1 : sw.startServer = .ok) (hs2 : sw.startPhonePcap = some p)
    (hw : iw.stopRemoteSsh j = .ok) :
    SEv.stopPhone (p + 1) ∈ (iosLanSetup sw).1 ∧
    (iosLanCleanup lw f (some q) pns ss ms fs sc).1.head? =
      some (LEv.stopPhone (q + 1)) ∧
    (runCleanupI iw f j ns pp b).1.take 2 =
      [IEv.stopRemote j b.remotePid, IEv.stopPhone j pp] := by
  refine ⟨?_, ?_, ?_⟩
  · unfold iosLanSetup
    rw [hs1, hs2]
    cases h3 : sw.stopPhoneSsh <;> cases h4 : sw.downloadPhone <;> simp
  · unfold iosLanCleanup
    cases h1 : lw.stopPhoneSsh <;> cases hss : ss <;> cases hpns : pns <;>
      cases hd : lw.downloadPhone <;> cases hr : lw.resetTerminal <;>
        cases hf : f <;> cases hi : lw.iptablesDown <;> simp
  · unfold runCleanupI
    rw [hw]
    cases h2 : iw.stopPhoneSsh j <;> cases hbs : b.serverStarted <;> cases hns : ns <;>
      cases hd1 : iw.downloadPhone j <;> cases hrn : b.remoteNameAssigned <;>
        cases hd2 : iw.downloadRemote j <;> cases hf : f <;>
          cases hr : iw.resetTerminal j <;> cases hi : iw.iptablesDown j <;> simp

/-- C7 amended witness: the adjustment statement instantiated at
concrete worlds — setup pid 7 stopped at 8, iteration pid 9 stopped at
10 in the LAN profile; WAN stops at the stored pids 200 and 100. -/
theorem stop_pid_adjustment_sites_witness :
    SEv.stopPhone 8 ∈ (iosLanSetup sWorldOk).1 ∧
    (iosLanCleanup lanCleanupOk false (some 9) true true true true true).1.head? =
      some (LEv.stopPhone 10) ∧
    (runCleanupI iWorldPids false 1 true (some 100) iBodyAllStarted).1.take 2 =
      [IEv.stopRemote 1 (some 200), IEv.stopPhone 1 (some 100)] := by
  have h := stop_pid_adjustment_sites sWorldOk lanCleanupOk iWorldPids 7 9 1 false true
    (some 100) iBodyAllStarted true true true true true rfl rfl rfl
  simpa [iBodyAllStarted] using h

/-! ### Supporting lemmas for the dispatch selection theorem -/

/-- Membership is preserved by the stable insertion. -/
theorem mem_insertDesc {κ χ ε : Type} (e x : Entry κ χ ε) (l : List (Entry κ χ ε)) :
    x ∈ insertDesc e l ↔ x = e ∨ x ∈ l := by
  induction l with
  | nil => simp [insertDesc]
  | cons y ys ih =>
    by_cases h : e.priority ≤ y.priority
    · simp only [insertDesc, if_pos h, List.mem_cons, ih]
      tauto
    · simp only [insertDesc, if_neg h, List.mem_cons]

/-- The stable insertion preserves the descending-priority invariant. -/
theorem pairwise_insertDesc {κ χ ε : Type} (e : Entry κ χ ε) (l : List (Entry κ χ ε))
    (h : l.Pairwise (fun a b => b.priority ≤ a.priority)) :
    (insertDesc e l).Pairwise (fun a b => b.priority ≤ a.priority) := by
  induction l with
  | nil => simp [insertDesc]
  | cons y ys ih =>
    rcases List.pairwise_cons.1 h with ⟨hy, hys⟩
    by_cases hc : e.priority ≤ y.priority
    · simp only [insertDesc, if_pos hc]
      refine List.pairwise_cons.2 ⟨?_, ih hys⟩
      intro z hz
      rcases (mem_insertDesc e z ys).1 hz with rfl | hzys
      · exact hc
      · exact hy z hzys
    · simp only [insertDesc, if_neg hc]
      refine List.pairwise_cons.2 ⟨?_, h⟩
      intro z hz
      rcases List.mem_cons.1 hz with rfl | hzys
      · exact le_of_lt (lt_of_not_le hc)
      · exact le_trans (hy z hzys) (le_of_lt (lt_of_not_le hc))

/-- Inserting into a descending list whose priorities are bounded by
`m` appends the new entry to the block of `m`-priority entries exactly
when its own priority is `m`, keeping the earlier entries first. -/
theorem filter_insertDesc {κ χ ε : Type} (e : Entry κ χ ε) (l : List (Entry κ χ ε))
    (m : Int) (hle : ∀ x ∈ l, x.priority ≤ m)
    (hp : l.Pairwise (fun a b => b.priority ≤ a.priority)) :
    (insertDesc e l).filter (fun x => x.priority == m) =
      l.filter (fun x => x.priority == m) ++
        if e.priority == m then [e] else [] := by
  induction l with
  | nil =>
    simp only [insertDesc, List.filter_nil, List.nil_append]
    by_cases hem : (e.priority == m) = true <;> simp [hem]
  | cons y ys ih =>
    rcases List.pairwise_cons.1 hp with ⟨hy, hys⟩
    by_cases hc : e.priority ≤ y.priority
    · simp only [insertDesc, if_pos hc]
      have ih' := ih (fun x hx => hle x (List.mem_cons_of_mem y hx)) hys
      rw [List.filter_cons, List.filter_cons]
      by_cases hy0 : (y.priority == m) = true
      · simp [hy0, ih']
      · simp [hy0, ih']
    · have hlt : ∀ z ∈ y :: ys, z.priority < e.priority := by
        intro z hz
        rcases List.mem_cons.1 hz with rfl | hzys
        · exact lt_of_not_le hc
        · exact lt_of_le_of_lt (hy z hzys) (lt_of_not_le hc)
      simp only [insertDesc, if_neg hc]
      by_cases hem : (e.priority == m) = true
      · have hmeq : e.priority = m := by simpa using hem
        have hnil : (y :: ys).filter (fun x => x.priority == m) = [] := by
          refine List.filter_eq_nil_iff.2 ?_
          intro z hz
          have hzlt := hlt z hz
          simp only [beq_iff_eq]
          omega
        simp [List.filter_cons, hem, hnil]
      · simp [List.filter_cons, hem]

/-- Membership through the insertion fold. -/
theorem mem_foldl_insertDesc {κ χ ε : Type} :
    ∀ (l acc : List (Entry κ χ ε)) (x : Entry κ χ ε),
      x ∈ l.foldl (fun a e => insertDesc e a) acc ↔ x ∈ acc ∨ x ∈ l := by
  intro l
  induction l with
  | nil => intro acc x; simp
  | cons e rest ih =>
    intro acc x
    rw [List.foldl_cons, ih (insertDesc e acc) x]
    rw [mem_insertDesc]
    simp only [List.mem_cons]
    tauto

/-- The insertion fold keeps the accumulator descending. -/
theorem pairwise_foldl_insertDesc {κ χ ε : Type} :
    ∀ (l acc : List (Entry κ χ ε)),
      acc.Pairwise (fun a b => b.priority ≤ a.priority) →
      (l.foldl (fun a e => insertDesc e a) acc).Pairwise
        (fun a b => b.priority ≤ a.priority) := by
  intro l
  induction l with
  | nil => intro acc h; simpa
  | cons e rest ih =>
    intro acc h
    rw [List.foldl_cons]
    exact ih (insertDesc e acc) (pairwise_insertDesc e acc h)

/-- The insertion fold keeps the maximal-priority entries in input
order: filtering the fold result at the bound `m` concatenates the
accumulator's and the input's `m`-priority entries. -/
theorem filter_foldl_insertDesc {κ χ ε : Type} (m : Int) :
    ∀ (l acc : List (Entry κ χ ε)),
      (∀ x ∈ acc, x.priority ≤ m) → (∀ x ∈ l, x.priority ≤ m) →
      acc.Pairwise (fun a b => b.priority ≤ a.priority) →
      (l.foldl (fun a e => insertDesc e a) acc).filter (fun x => x.priority == m) =
        acc.filter (fun x => x.priority == m) ++ l.filter (fun x => x.priority == m) := by
  intro l
  induction l with
  | nil => intro acc _ _ _; simp
  | cons e rest ih =>
    intro acc hacc hl hp
    rw [List.foldl_cons]
    have hacc' : ∀ x ∈ insertDesc e acc, x.priority ≤ m := by
      intro x hx
      rcases (mem_insertDesc e x acc).1 hx with rfl | hxa
      · exact hl _ (List.mem_cons_self _ _)
      · exact hacc x hxa
    rw [ih (insertDesc e acc) hacc' (fun x hx => hl x (List.mem_cons_of_mem e hx))
        (pairwise_insertDesc e acc hp)]
    rw [filter_insertDesc e acc m hacc hp, List.filter_cons]
    by_cases hem : (e.priority == m) = true <;> simp [hem]

/-- Any starting value is below the running maximum. -/
theorem le_foldl_maxPrio {κ χ ε : Type} :
    ∀ (es : List (Entry κ χ ε)) (a : Int),
      a ≤ es.foldl (fun acc x => max acc x.priority) a := by
  intro es
  induction es with
  | nil => intro a; simp
  | cons y ys ih =>
    intro a
    rw [List.foldl_cons]
    exact le_trans (le_max_left a y.priority) (ih (max a y.priority))

/-- Every member's priority is below the running maximum. -/
theorem mem_le_foldl_maxPrio {κ χ ε : Type} :
    ∀ (es : List (Entry κ χ ε)) (a : Int) (x : Entry κ χ ε), x ∈ es →
      x.priority ≤ es.foldl (fun acc y => max acc y.priority) a := by
  intro es
  induction es with
  | nil => intro a x hx; simp at hx
  | cons y ys ih =>
    intro a x hx
    rw [List.foldl_cons]
    rcases List.mem_cons.1 hx with rfl | hxys
    · exact le_trans (le_max_right a x.priority) (le_foldl_maxPrio ys (max a x.priority))
    · exact ih (max a y.priority) x hxys

/-- Every match's priority is at most the maximum priority. -/
theorem le_maxPriority {κ χ ε : Type} (l : List (Entry κ χ ε)) (x : Entry κ χ ε)
    (hx : x ∈ l) : x.priority ≤ maxPriority l := by
  cases l with
  | nil => simp at hx
  | cons e es =>
    rcases List.mem_cons.1 hx with rfl | hxes
    · exact le_foldl_maxPrio es x.priority
    · exact mem_le_foldl_maxPrio es e.priority x hxes

/-- The running maximum respects any common upper bound. -/
theorem foldl_maxPrio_le {κ χ ε : Type} (c : Int) :
    ∀ (es : List (Entry κ χ ε)) (a : Int), a ≤ c → (∀ x ∈ es, x.priority ≤ c) →
      es.foldl (fun acc x => max acc x.priority) a ≤ c := by
  intro es
  induction es with
  | nil => intro a ha _; simpa
  | cons y ys ih =>
    intro a ha hall
    rw [List.foldl_cons]
    exact ih (max a y.priority) (max_le ha (hall y (List.mem_cons_self y ys)))
      (fun x hx => hall x (List.mem_cons_of_mem y hx))

/-- The maximum priority of a nonempty list respects any common upper
bound. -/
theorem maxPriority_le {κ χ ε : Type} (e : Entry κ χ ε) (es : List (Entry κ χ ε))
    (c : Int) (h : ∀ x ∈ e :: es, x.priority ≤ c) : maxPriority (e :: es) ≤ c :=
  foldl_maxPrio_le c es e.priority (h e (List.mem_cons_self e es))
    (fun x hx => h x (List.mem_cons_of_mem e hx))

/-- The sort is a reordering: membership is unchanged. -/
theorem mem_sortByPriorityDesc {κ χ ε : Type} (l : List (Entry κ χ ε))
    (x : Entry κ χ ε) : x ∈ sortByPriorityDesc l ↔ x ∈ l := by
  unfold sortByPriorityDesc
  rw [mem_foldl_insertDesc]
  simp

/-- The sort result is descending in priority. -/
theorem pairwise_sortByPriorityDesc {κ χ ε : Type} (l : List (Entry κ χ ε)) :
    (sortByPriorityDesc l).Pairwise (fun a b => b.priority ≤ a.priority) :=
  pairwise_foldl_insertDesc l [] List.Pairwise.nil

/-- Stability at the top: the entries tied at the maximum priority
appear in the sorted list exactly as they appear in the input. -/
theorem filter_sortByPriorityDesc {κ χ ε : Type} (l : List (Entry κ χ ε)) :
    (sortByPriorityDesc l).filter (fun x => x.priority == maxPriority l) =
      l.filter (fun x => x.priority == maxPriority l) := by
  unfold sortByPriorityDesc
  rw [filter_foldl_insertDesc (maxPriority l) l [] (by simp)
      (fun x hx => le_maxPriority l x hx) List.Pairwise.nil]
  simp

/-- C3: the selection semantics of `dispatch`.  With no capability
match it fails with the no-runner error; with a unique entry at the
maximum priority among the matches exactly that entry's runner runs and
its outcome — including a raised error — is returned unmodified; with
two or more entries tied at the maximum priority it fails with the
ambiguity error naming all tied candidates and their priorities, in
registry order. -/
theorem dispatch_selection {κ χ ε : Type} (registry : List (Entry κ χ ε)) (cfg : κ)
    (ctx : χ) :
    (registry.filter (fun e => e.canHandle cfg) = [] →
      dispatch registry cfg ctx = .runnerNotFound noMatchMsg) ∧
    (∀ e, topCandidates registry cfg = [e] →
      dispatch registry cfg ctx = runOutcome e ctx) ∧
    (2 ≤ (topCandidates registry cfg).length →
      dispatch registry cfg ctx =
        .runnerAmbiguous (tiedMsg (topCandidates registry cfg))) := by
  have hd : dispatch registry cfg ctx =
      if (registry.filter (fun e => e.canHandle cfg)).isEmpty then
        .runnerNotFound noMatchMsg
      else pickTop (sortByPriorityDesc (registry.filter (fun e => e.canHandle cfg))) ctx :=
    rfl
  have htc : topCandidates registry cfg =
      (registry.filter (fun e => e.canHandle cfg)).filter
        (fun e => e.priority ==
          maxPriority (registry.filter (fun e => e.canHandle cfg))) := rfl
  cases hm : registry.filter (fun e => e.canHandle cfg) with
  | nil =>
    refine ⟨fun _ => ?_, fun e he => ?_, fun h2 => ?_⟩
    · rw [hd, hm]
      simp
    · rw [htc, hm] at he
      simp at he
    · rw [htc, hm] at h2
      simp at h2
  | cons e0 es =>
    have hnotmt : (registry.filter (fun e => e.canHandle cfg)).isEmpty = false := by
      rw [hm]
      rfl
    have hd2 : dispatch registry cfg ctx =
        pickTop (sortByPriorityDesc (registry.filter (fun e => e.canHandle cfg))) ctx := by
      rw [hd, hnotmt]
      simp
    have hne : sortByPriorityDesc (registry.filter (fun e => e.canHandle cfg)) ≠ [] := by
      intro h0
      have he0 : e0 ∈ sortByPriorityDesc (registry.filter (fun e => e.canHandle cfg)) :=
        (mem_sortByPriorityDesc _ _).2 (by rw [hm]; exact List.mem_cons_self _ _)
      rw [h0] at he0
      simp at he0
    obtain ⟨tope, rest, hsorted⟩ :
        ∃ t r, sortByPriorityDesc (registry.filter (fun e => e.canHandle cfg)) = t :: r := by
      cases hs : sortByPriorityDesc (registry.filter (fun e => e.canHandle cfg)) with
      | nil => exact absurd hs hne
      | cons t r => exact ⟨t, r, rfl⟩
    have htope_mem : tope ∈ registry.filter (fun e => e.canHandle cfg) :=
      (mem_sortByPriorityDesc _ _).1 (by rw [hsorted]; exact List.mem_cons_self _ _)
    have hpw := pairwise_sortByPriorityDesc (registry.filter (fun e => e.canHandle cfg))
    rw [hsorted] at hpw
    rcases List.pairwise_cons.1 hpw with ⟨hrest, _⟩
    have htop_le : ∀ y ∈ registry.filter (fun e => e.canHandle cfg),
        y.priority ≤ tope.priority := by
      intro y hy
      have hy' : y ∈ tope :: rest := by
        rw [← hsorted]
        exact (mem_sortByPriorityDesc _ _).2 hy
      rcases List.mem_cons.1 hy' with rfl | hyr
      · exact le_refl _
      · exact hrest y hyr
    have hmax : tope.priority =
        maxPriority (registry.filter (fun e => e.canHandle cfg)) := by
      refine le_antisymm (le_maxPriority _ _ htope_mem) ?_
      rw [hm]
      exact maxPriority_le e0 es _ (fun x hx => htop_le x (by rw [hm]; exact hx))
    have htops_eq : (tope :: rest).filter (fun x => x.priority == tope.priority) =
        topCandidates registry cfg := by
      rw [← hsorted, hmax, filter_sortByPriorityDesc, htc]
    refine ⟨fun h0 => ?_, fun e he => ?_, fun h2 => ?_⟩
    · exact absurd h0 (by simp)
    · have hft : (tope :: rest).filter (fun x => x.priority == tope.priority) = [e] :=
        htops_eq.trans he
      rw [hd2, hsorted]
      simp only [pickTop]
      rw [hft]
    · obtain ⟨a, b, t, hab⟩ : ∃ a b t, topCandidates registry cfg = a :: b :: t := by
        rcases h : topCandidates registry cfg with _ | ⟨a, _ | ⟨b, t⟩⟩
        · rw [h] at h2
          simp at h2
        · rw [h] at h2
          simp at h2
        · exact ⟨a, b, t, rfl⟩
      have hft : (tope :: rest).filter (fun x => x.priority == tope.priority) =
          a :: b :: t := htops_eq.trans hab
      rw [hd2, hsorted, hab]
      simp only [pickTop]
      rw [hft]

/-- C3 witness: the selection theorem instantiated at three concrete
registries — no capability match, a unique priority-1 match above a
priority-0 match (whose raised error propagates), and two matches tied
at priority 0 (both named with their priorities in the ambiguity
message). -/
theorem dispatch_selection_witness :
    dispatch [entryNoMatch] true () = .runnerNotFound noMatchMsg ∧
    dispatch [entryHigh, entryLow] true () = .runnerError "boom" ∧
    dispatch [entryA, entryB] true () = .runnerAmbiguous "A(prio=0), B(prio=0)" := by
  refine ⟨?_, ?_, ?_⟩
  · exact (dispatch_selection [entryNoMatch] true ()).1 rfl
  · have h := (dispatch_selection [entryHigh, entryLow] true ()).2.1 entryHigh rfl
    rw [h]
    rfl
  · have h := (dispatch_selection [entryA, entryB] true ()).2.2 (by decide)
    rw [h]
    rfl

end Capiot
